import Mathlib

/-!
# Verification of the aigallery render pipeline

Shallow embedding of the render-pipeline core of the repository
(`app/services/render_service.py`, `app/services/model_adapters.py`,
`app/models/database.py`) and proofs of the specified properties.

Modelling conventions:
* JSON metadata values are modelled by the inductive `MVal`; a JSON object is
  an association list `MetaDict` with Python-dict lookup/override semantics.
* The persisted job store (the `renders` table) is a list of `Render` records,
  queried by primary key `id`; a committed transaction is the returned store.
* External effects (provider generation calls, HTTP download, image decoding,
  asset writes, the current UTC time) are an explicit environment `Env`;
  every failure mode of the Python pipeline corresponds to an `Except.error`
  of the relevant `Env` operation (exceptions are `Except String`).
* Numeric literals of the Python source (`0.8`, `7.5`) are exact rationals.
-/

/-- A JSON value as stored in the `render_metadata` column and in provider
metadata dictionaries. -/
inductive MVal where
  | s (v : String)
  | num (v : Rat)
  | b (v : Bool)
  | null
  | dict (kvs : List (String × MVal))

/-- A JSON object: association list with Python-dict semantics. -/
abbrev MetaDict := List (String × MVal)

/-- First-match lookup, i.e. Python `d[k]` / `d.get(k)` on a duplicate-free
dict representation. -/
def MetaDict.get : MetaDict → String → Option MVal
  | [], _ => none
  | (k2, v) :: rest, k => if k2 = k then some v else MetaDict.get rest k

/-- Python `d[k] = v` (also the effect of key `k` in `{**d, k: v}`): replace
the first binding of `k` in place, or append a new binding. -/
def MetaDict.set (m : MetaDict) (k : String) (v : MVal) : MetaDict :=
  match m with
  | [] => [(k, v)]
  | (k2, v2) :: rest =>
      if k2 = k then (k2, v) :: rest else (k2, v2) :: MetaDict.set rest k v

/-- Python `d.update(other)`: set every binding of `other` in `d`, in order. -/
def MetaDict.update (m : MetaDict) (other : MetaDict) : MetaDict :=
  other.foldl (fun acc kv => MetaDict.set acc kv.1 kv.2) m

/-- A row of the `renders` table (`app/models/database.py`, class `Render`).
`created_at` is the server-side timestamp; `render_metadata` is the nullable
JSON column. -/
structure Render where
  id : String
  user_id : Option Int
  style_phrase : String
  model_key : String
  base_prompt : String
  image_path : String
  thumb_path : String
  input_image_path : Option String
  status : String
  cost_credits : Int
  render_metadata : Option MetaDict
  stripe_event_id : Option String := none
  created_at : Option String := none

/-- The job store: the committed contents of the `renders` table. -/
abbrev Store := List Render

/-- `db.query(Render).filter(Render.id == render_id).first()`. -/
def findJob : Store → String → Option Render
  | [], _ => none
  | r :: rest, i => if r.id = i then some r else findJob rest i

/-- Committing a mutation of the row with primary key `i` to record `r`. -/
def updateJob : Store → String → Render → Store
  | [], _, _ => []
  | j :: rest, i, r => (if j.id = i then r else j) :: updateJob rest i r

/-- The configured credentials the registry is built from
(`app/utils/config.py`, class `Settings`; fields default to `""`). -/
structure Settings where
  replicate_api_token : String := ""
  openai_api_key : String := ""

/-- `ModelRegistry` (`app/services/model_adapters.py`): the mapping from model
key to adapter.  Only the key set matters for control flow; each adapter's
runtime behaviour (a network call) lives in `Env`. -/
structure ModelRegistry where
  adapters : List String

/-- `ModelRegistry.__init__`: register `replicate:sdxl` when a Replicate token
is configured (Python truthiness: non-empty string) and `openai:dalle3`,
`openai:dalle2` when an OpenAI key is configured. -/
def ModelRegistry.ofSettings (s : Settings) : ModelRegistry :=
  { adapters :=
      (if s.replicate_api_token ≠ "" then ["replicate:sdxl"] else []) ++
      (if s.openai_api_key ≠ "" then ["openai:dalle3", "openai:dalle2"] else []) }

/-- `ModelRegistry.list_models`. -/
def ModelRegistry.list_models (reg : ModelRegistry) : List String :=
  reg.adapters

/-- `ModelRegistry.get_adapter`: raises `ValueError` when the key is absent;
the success value is the key itself (the adapter's behaviour lives in `Env`). -/
def ModelRegistry.get_adapter (reg : ModelRegistry) (model_key : String) :
    Except String String :=
  if model_key ∈ reg.adapters then Except.ok model_key
  else Except.error ("Model " ++ model_key ++ " not available")

/-- `ModelRegistry.build_prompt`: the f-string `f"{base_prompt} {style_phrase}"`. -/
def ModelRegistry.build_prompt (_reg : ModelRegistry)
    (base_prompt style_phrase : String) : String :=
  s!"{base_prompt} {style_phrase}"

/-- The result of one generated image as returned by an adapter
(`model_adapters.py`, dataclass `ImageResult`). -/
structure ImageResult where
  image_url : String
  image_bytes : Option (List Nat) := none
  metadata : Option MetaDict := none

/-- The provider call the executor hands to the adapter (lines 63–78 of
`render_service.py`): either `adapter.img2img(path, prompt, strength, params)`
or `adapter.text2img(prompt, negative, params)`. -/
inductive GenCall where
  | img2img (image_path : String) (prompt : String) (strength : Rat)
      (params : MetaDict)
  | text2img (prompt : String) (negative : Option String) (params : MetaDict)

/-- The strength argument of an image-to-image call, if this is one. -/
def GenCall.strengthArg : GenCall → Option Rat
  | .img2img _ _ s _ => some s
  | .text2img _ _ _ => none

/-- The date parts drawn from `datetime.utcnow()` during one execution. -/
structure DateParts where
  year : Nat
  month : Nat
  iso : String

/-- The external world of one background execution: adapter behaviour,
HTTP download (`download_image` returns `none` on any request exception),
image decoding (`Image.open`), asset writes (`Image.save`), and the clock. -/
structure Env where
  gen : GenCall → Except String (List ImageResult)
  download : String → Option (List Nat)
  decode : List Nat → Except String (Nat × Nat)
  write : String → Except String Unit
  now : DateParts

/-- `{month:02d}`: two-digit month formatting. -/
def month2 (m : Nat) : String :=
  if m < 10 then "0" ++ toString m else toString m

/-- Default generation parameters (lines 51–57 of `render_service.py`). -/
def defaultParams : MetaDict :=
  [("width", .num 1024), ("height", .num 1024), ("num_outputs", .num 1),
   ("guidance_scale", .num 7.5), ("num_inference_steps", .num 50)]

/-- Lines 59–61: `params.update(render.render_metadata["params"])` when the
metadata has a `"params"` key.  A non-mapping value makes `dict.update`
raise, which the job-level handler catches. -/
def mergeJobParams (meta : Option MetaDict) : Except String MetaDict :=
  match meta with
  | none => Except.ok defaultParams
  | some m =>
      match m.get "params" with
      | none => Except.ok defaultParams
      | some (.dict kvs) => Except.ok (defaultParams.update kvs)
      | some _ => Except.error "dictionary update sequence is not a mapping"

/-- Lines 63–78: pick image-to-image (with the literal `strength=0.8`) when
the job has an input image, else text-to-image (with `negative=None`). -/
def makeGenCall (r : Render) (effective_prompt : String) (params : MetaDict) :
    GenCall :=
  match r.input_image_path with
  | some p => .img2img p effective_prompt (0.8 : Rat) params
  | none => .text2img effective_prompt none params

/-- What a successful pass through generation + `save_image_files` produces:
the two relative asset paths and the data merged into the job's metadata on
completion. -/
structure GenOutcome where
  image_path : String
  thumb_path : String
  generation : MVal
  effective_prompt : String

/-- `save_image_files` (lines 132–162): decode the bytes, write the full
image and the thumbnail under `data/images/{year}/{month:02d}/`, and return
the relative paths recorded on the job.  Any step may raise. -/
def save_image_files (env : Env) (r : Render) (image_bytes : List Nat) :
    Except String (String × String) :=
  let year := toString env.now.year
  let month := month2 env.now.month
  let filename := r.id ++ ".webp"
  let thumb_filename := r.id ++ "-thumb.webp"
  let image_dir := "data/images/" ++ year ++ "/" ++ month
  match env.decode image_bytes with
  | .error e => .error e
  | .ok _dims =>
    match env.write (image_dir ++ "/" ++ filename) with
    | .error e => .error e
    | .ok _ =>
      match env.write (image_dir ++ "/" ++ thumb_filename) with
      | .error e => .error e
      | .ok _ =>
        .ok ("images/" ++ year ++ "/" ++ month ++ "/" ++ filename,
             "images/" ++ year ++ "/" ++ month ++ "/" ++ thumb_filename)

/-- The body of the `try:` block of `process_render` (lines 42–92) run on a
loaded job `r`: each `Except.error` is an exception reaching the handler. -/
def runGen (reg : ModelRegistry) (env : Env) (r : Render) :
    Except String GenOutcome :=
  match reg.get_adapter r.model_key with
  | .error e => .error e
  | .ok _adapter =>
    let effective_prompt := reg.build_prompt r.base_prompt r.style_phrase
    match mergeJobParams r.render_metadata with
    | .error e => .error e
    | .ok params =>
      match env.gen (makeGenCall r effective_prompt params) with
      | .error e => .error e
      | .ok [] => .error "No images generated"
      | .ok (result :: _) =>
        match env.download result.image_url with
        | none => .error "Failed to download generated image"
        | some [] => .error "Failed to download generated image"
        | some bs =>
          match save_image_files env r bs with
          | .error e => .error e
          | .ok paths =>
            .ok { image_path := paths.1, thumb_path := paths.2,
                  generation := match result.metadata with
                    | some kvs => .dict kvs
                    | none => .null,
                  effective_prompt := effective_prompt }

/-- `process_render` (lines 31–118): load the job (absent ⇒ no-op); on
success commit status `done`, both asset paths and the merged completion
metadata; on any exception reload the row and commit status `failed` with
the error text and failure timestamp merged into the metadata. -/
def process_render (reg : ModelRegistry) (env : Env) (db : Store)
    (render_id : String) : Store :=
  match findJob db render_id with
  | none => db
  | some r =>
    match runGen reg env r with
    | .ok out =>
        let r' := { r with
          image_path := out.image_path,
          thumb_path := out.thumb_path,
          status := "done",
          render_metadata := some
            ((((r.render_metadata.getD []).set "generation" out.generation).set
                "effective_prompt" (.s out.effective_prompt)).set
                "completed_at" (.s env.now.iso)) }
        updateJob db render_id r'
    | .error e =>
        match findJob db render_id with
        | none => db
        | some r2 =>
            let r2' := { r2 with
              status := "failed",
              render_metadata := some
                (((r2.render_metadata.getD []).set "error" (.s e)).set
                  "failed_at" (.s env.now.iso)) }
            updateJob db render_id r2'

/-- The caller-supplied arguments of `create_render` (lines 164–171). -/
structure CreateParams where
  user_id : Option Int
  style_phrase : String
  model_key : String
  base_prompt : String
  input_image_path : Option String := none
  cost_credits : Int := 1

/-- The `Render(...)` record built by `create_render` (lines 179–194): a
fresh `pending` row with empty asset paths and creation metadata.  `newId`
is the generated `uuid4`; `now_iso` is `datetime.utcnow()`. -/
def newRender (p : CreateParams) (newId now_iso : String) : Render :=
  { id := newId,
    user_id := p.user_id,
    style_phrase := p.style_phrase,
    model_key := p.model_key,
    base_prompt := p.base_prompt,
    input_image_path := p.input_image_path,
    status := "pending",
    cost_credits := p.cost_credits,
    image_path := "",
    thumb_path := "",
    render_metadata := some
      [("created_at", .s now_iso), ("model_available", .b true)] }

/-- `create_render` continued: reject or insert-and-commit the new row. -/
def create_render (reg : ModelRegistry) (db : Store) (p : CreateParams)
    (newId : String) (now_iso : String) : Except String Render × Store :=
  if p.model_key ∉ reg.list_models then
    (Except.error ("Model " ++ p.model_key ++ " not available"), db)
  else
    (Except.ok (newRender p newId now_iso), db ++ [newRender p newId now_iso])

/-- `get_render_status` (lines 205–221): the returned JSON snapshot. -/
structure RenderStatusView where
  id : String
  status : String
  style_phrase : String
  model_key : String
  base_prompt : String
  image_path : String
  thumb_path : String
  created_at : Option String
  metadata : Option MetaDict

/-- `get_render_status`: `None` for a missing id, else the field snapshot;
`image_path`/`thumb_path` are non-nullable columns, returned verbatim. -/
def get_render_status (db : Store) (render_id : String) :
    Option RenderStatusView :=
  match findJob db render_id with
  | none => none
  | some r => some {
      id := r.id, status := r.status, style_phrase := r.style_phrase,
      model_key := r.model_key, base_prompt := r.base_prompt,
      image_path := r.image_path, thumb_path := r.thumb_path,
      created_at := r.created_at, metadata := r.render_metadata }

/-- The keyword arguments `create_matrix_renders` passes to `create_render`
for one (style, model) combination: the shared base prompt and owner, and
`cost_credits=0`. -/
def matrixParams (user_id : Option Int) (style_phrase model_key
    base_prompt : String) : CreateParams :=
  { user_id := user_id, style_phrase := style_phrase,
    model_key := model_key, base_prompt := base_prompt,
    cost_credits := 0 }

/-- The inner double loop of `create_matrix_renders` over the (style, model)
cross product, calling `create_render` with `cost_credits=0`; a raised
`ValueError` propagates, keeping the rows already committed. -/
def matrixLoop (reg : ModelRegistry) (base_prompt : String)
    (user_id : Option Int) (idGen : Nat → String) (now_iso : String) :
    List (String × String) → Store → Nat → List Render →
    Except String (List Render) × Store
  | [], db, _, acc => (Except.ok acc.reverse, db)
  | (style_phrase, model_key) :: rest, db, k, acc =>
    match create_render reg db
        (matrixParams user_id style_phrase model_key base_prompt)
        (idGen k) now_iso with
    | (.ok r, db2) => matrixLoop reg base_prompt user_id idGen now_iso
        rest db2 (k + 1) (r :: acc)
    | (.error e, db2) => (Except.error e, db2)

/-- The (style, model) pairs in the order the nested `for` loops visit them. -/
def stylePairs (style_phrases model_keys : List String) :
    List (String × String) :=
  style_phrases.foldr
    (fun s acc => (model_keys.map (fun m => (s, m))) ++ acc) []

/-- `create_matrix_renders` (lines 223–245): one `create_render` per
(style, model) combination, each with `cost_credits=0`. -/
def create_matrix_renders (reg : ModelRegistry) (db : Store)
    (base_prompt : String) (style_phrases model_keys : List String)
    (user_id : Option Int) (idGen : Nat → String) (now_iso : String) :
    Except String (List Render) × Store :=
  matrixLoop reg base_prompt user_id idGen now_iso
    (stylePairs style_phrases model_keys) db 0 []

/-- One externally triggered operation on the job store: a synchronous
submission (`create_render`, with its generated id and timestamp) or one
background execution of a job id (`process_render`, with its external
world). -/
inductive Event where
  | create (p : CreateParams) (newId : String) (now_iso : String)
  | exec (id : String) (env : Env)

/-- The id a creation event inserts, if any. -/
def Event.createId : Event → Option String
  | .create _ newId _ => some newId
  | .exec _ _ => none

/-- The id an execution event processes, if any. -/
def Event.execId : Event → Option String
  | .create _ _ _ => none
  | .exec id _ => some id

/-- The store transition of one event. -/
def stepEvent (reg : ModelRegistry) (db : Store) : Event → Store
  | .create p newId now_iso => (create_render reg db p newId now_iso).2
  | .exec id env => process_render reg env db id

/-- Running a sequence of operations from the empty store. -/
def runTrace (reg : ModelRegistry) (es : List Event) : Store :=
  es.foldl (stepEvent reg) []

/-- Traces the system actually produces: generated ids are fresh (`uuid4`)
and each created job is enqueued — hence executed — at most once
(`create_render` enqueues each new id exactly once and nothing re-enqueues). -/
def WFTrace (es : List Event) : Prop :=
  (es.filterMap Event.createId).Nodup ∧ (es.filterMap Event.execId).Nodup

/-- Lifecycle shape: a completed job, with both asset paths recorded. -/
def DoneShape (r : Render) : Prop :=
  r.status = "done" ∧ r.image_path ≠ "" ∧ r.thumb_path ≠ ""

/-- Lifecycle shape: a failed job, with an error recorded and no asset
paths. -/
def FailedShape (r : Render) : Prop :=
  r.status = "failed" ∧ ((r.render_metadata.getD []).get "error").isSome ∧
    r.image_path = "" ∧ r.thumb_path = ""

/-- Lifecycle shape: a job awaiting execution, with no asset paths. -/
def PendingShape (r : Render) : Prop :=
  r.status = "pending" ∧ r.image_path = "" ∧ r.thumb_path = ""

/-- A job satisfying one of the three lifecycle shapes. -/
def JobShape (r : Render) : Prop :=
  DoneShape r ∨ FailedShape r ∨ PendingShape r

theorem MetaDict.get_set (m : MetaDict) (k k' : String) (v : MVal) :
    (m.set k v).get k' = if k = k' then some v else m.get k' := by
  induction m with
  | nil =>
      simp only [MetaDict.set, MetaDict.get]
  | cons kv rest ih =>
      obtain ⟨k2, v2⟩ := kv
      by_cases h2 : k2 = k
      · subst h2
        by_cases h3 : k2 = k'
        · subst h3
          simp [MetaDict.set, MetaDict.get]
        · simp [MetaDict.set, MetaDict.get, h3]
      · simp only [MetaDict.set, if_neg h2, MetaDict.get]
        by_cases h3 : k2 = k'
        · subst h3
          have hkk : ¬ k = k2 := fun h => h2 h.symm
          simp [hkk]
        · simp [h3, ih]

theorem findJob_updateJob_self (db : Store) (i : String) (r : Render)
    (h : r.id = i) :
    findJob (updateJob db i r) i = (findJob db i).map (fun _ => r) := by
  induction db with
  | nil => simp [updateJob, findJob]
  | cons j rest ih =>
      by_cases hj : j.id = i
      · simp [updateJob, findJob, hj, h]
      · simp [updateJob, findJob, hj, ih]

theorem findJob_updateJob_ne (db : Store) (i k : String) (r : Render)
    (h : r.id = i) (hk : k ≠ i) :
    findJob (updateJob db i r) k = findJob db k := by
  induction db with
  | nil => simp [updateJob, findJob]
  | cons j rest ih =>
      by_cases hj : j.id = i
      · have hrk : ¬ r.id = k := by
          rw [h]; exact fun hik => hk hik.symm
        have hjk : ¬ j.id = k := by
          rw [hj]; exact fun hik => hk hik.symm
        simp only [updateJob, findJob, if_pos hj, if_neg hrk, if_neg hjk]
        exact ih
      · by_cases hjk : j.id = k
        · simp only [updateJob, findJob, if_neg hj, if_pos hjk]
        · simp only [updateJob, findJob, if_neg hj, if_neg hjk]
          exact ih

theorem findJob_append (db : Store) (r : Render) (k : String) :
    findJob (db ++ [r]) k =
      ((findJob db k).orElse (fun _ => if r.id = k then some r else none)) := by
  induction db with
  | nil => simp [findJob]
  | cons j rest ih =>
      by_cases hj : j.id = k
      · simp [findJob, hj]
      · simp [findJob, hj, ih]

/-- The committed record after one execution of a loaded job `r`: the `done`
update on success, the `failed` update on any caught exception. -/
def executeJob (reg : ModelRegistry) (env : Env) (r : Render) : Render :=
  match runGen reg env r with
  | .ok out =>
      { r with
        image_path := out.image_path,
        thumb_path := out.thumb_path,
        status := "done",
        render_metadata := some
          ((((r.render_metadata.getD []).set "generation" out.generation).set
              "effective_prompt" (.s out.effective_prompt)).set
              "completed_at" (.s env.now.iso)) }
  | .error e =>
      { r with
        status := "failed",
        render_metadata := some
          (((r.render_metadata.getD []).set "error" (.s e)).set
            "failed_at" (.s env.now.iso)) }

theorem process_render_eq (reg : ModelRegistry) (env : Env) (db : Store)
    (render_id : String) :
    process_render reg env db render_id =
      match findJob db render_id with
      | none => db
      | some r => updateJob db render_id (executeJob reg env r) := by
  cases hf : findJob db render_id with
  | none => simp [process_render, hf]
  | some r =>
      cases hg : runGen reg env r with
      | ok out => simp [process_render, executeJob, hf, hg]
      | error e => simp [process_render, executeJob, hf, hg]

theorem findJob_some_id (db : Store) (i : String) (r : Render)
    (h : findJob db i = some r) : r.id = i := by
  induction db with
  | nil => simp [findJob] at h
  | cons j rest ih =>
      by_cases hj : j.id = i
      · simp [findJob, hj] at h
        rw [← h]; exact hj
      · simp [findJob, hj] at h
        exact ih h

theorem findJob_mem (db : Store) (i : String) (r : Render)
    (h : findJob db i = some r) : r ∈ db := by
  induction db with
  | nil => simp [findJob] at h
  | cons j rest ih =>
      by_cases hj : j.id = i
      · simp [findJob, hj] at h
        rw [← h]; exact List.mem_cons_self j rest
      · simp [findJob, hj] at h
        exact List.mem_cons_of_mem j (ih h)

theorem mem_updateJob (db : Store) (i : String) (r x : Render)
    (h : x ∈ updateJob db i r) : x = r ∨ (x ∈ db ∧ x.id ≠ i) := by
  induction db with
  | nil => simp [updateJob] at h
  | cons j rest ih =>
      simp only [updateJob, List.mem_cons] at h
      rcases h with h | h
      · by_cases hj : j.id = i
        · rw [if_pos hj] at h
          exact Or.inl h
        · rw [if_neg hj] at h
          exact Or.inr ⟨by rw [h]; exact List.mem_cons_self j rest, by rw [h]; exact hj⟩
      · rcases ih h with h2 | ⟨h2, h3⟩
        · exact Or.inl h2
        · exact Or.inr ⟨List.mem_cons_of_mem j h2, h3⟩

theorem executeJob_id (reg : ModelRegistry) (env : Env) (r : Render) :
    (executeJob reg env r).id = r.id := by
  unfold executeJob
  cases runGen reg env r <;> rfl

theorem executeJob_status (reg : ModelRegistry) (env : Env) (r : Render) :
    (executeJob reg env r).status = "done" ∨
      (executeJob reg env r).status = "failed" := by
  unfold executeJob
  cases runGen reg env r with
  | ok out => exact Or.inl rfl
  | error e => exact Or.inr rfl

theorem string_append_ne_empty (s t : String) (hs : s.length ≠ 0) :
    s ++ t ≠ "" := by
  intro h
  have h2 := congrArg String.length h
  rw [String.length_append] at h2
  have h0 : ("" : String).length = 0 := rfl
  rw [h0] at h2
  omega

theorem save_image_files_ok_paths (env : Env) (r : Render) (b : List Nat)
    (ps : String × String) (h : save_image_files env r b = .ok ps) :
    ps.1 = "images/" ++ toString env.now.year ++ "/" ++ month2 env.now.month
        ++ "/" ++ (r.id ++ ".webp") ∧
    ps.2 = "images/" ++ toString env.now.year ++ "/" ++ month2 env.now.month
        ++ "/" ++ (r.id ++ "-thumb.webp") := by
  unfold save_image_files at h
  cases hd : env.decode b with
  | error e => simp only [hd] at h; exact Except.noConfusion h
  | ok dims =>
      simp only [hd] at h
      cases hw1 : env.write ("data/images/" ++ toString env.now.year ++ "/"
          ++ month2 env.now.month ++ "/" ++ (r.id ++ ".webp")) with
      | error e => simp only [hw1] at h; exact Except.noConfusion h
      | ok u1 =>
          simp only [hw1] at h
          cases hw2 : env.write ("data/images/" ++ toString env.now.year ++ "/"
              ++ month2 env.now.month ++ "/" ++ (r.id ++ "-thumb.webp")) with
          | error e => simp only [hw2] at h; exact Except.noConfusion h
          | ok u2 =>
              simp only [hw2, Except.ok.injEq] at h
              rw [← h]
              exact ⟨rfl, rfl⟩

theorem runGen_ok_paths (reg : ModelRegistry) (env : Env) (r : Render)
    (out : GenOutcome) (h : runGen reg env r = .ok out) :
    out.image_path ≠ "" ∧ out.thumb_path ≠ "" := by
  unfold runGen at h
  cases ha : reg.get_adapter r.model_key with
  | error e => simp only [ha] at h; exact Except.noConfusion h
  | ok a =>
      simp only [ha] at h
      cases hp : mergeJobParams r.render_metadata with
      | error e => simp only [hp] at h; exact Except.noConfusion h
      | ok params =>
          simp only [hp] at h
          cases hg : env.gen (makeGenCall r
              (reg.build_prompt r.base_prompt r.style_phrase) params) with
          | error e => simp only [hg] at h; exact Except.noConfusion h
          | ok results =>
              simp only [hg] at h
              cases results with
              | nil => simp only [] at h; exact Except.noConfusion h
              | cons result rest =>
                  cases hdl : env.download result.image_url with
                  | none => simp only [hdl] at h; exact Except.noConfusion h
                  | some bs =>
                      simp only [hdl] at h
                      cases bs with
                      | nil => simp only [] at h; exact Except.noConfusion h
                      | cons b0 brest =>
                          cases hs : save_image_files env r (b0 :: brest) with
                          | error e => simp only [hs] at h; exact Except.noConfusion h
                          | ok ps =>
                              simp only [hs, Except.ok.injEq] at h
                              obtain ⟨h1, h2⟩ :=
                                save_image_files_ok_paths env r _ ps hs
                              constructor
                              · rw [← h, h1]
                                apply string_append_ne_empty
                                rw [String.length_append]
                                have : ("/" : String).length = 1 := rfl
                                omega
                              · rw [← h, h2]
                                apply string_append_ne_empty
                                rw [String.length_append]
                                have : ("/" : String).length = 1 := rfl
                                omega

theorem executeJob_shape (reg : ModelRegistry) (env : Env) (r : Render)
    (h1 : r.image_path = "") (h2 : r.thumb_path = "") :
    DoneShape (executeJob reg env r) ∨ FailedShape (executeJob reg env r) := by
  unfold executeJob
  cases hg : runGen reg env r with
  | ok out =>
      obtain ⟨hi, ht⟩ := runGen_ok_paths reg env r out hg
      exact Or.inl ⟨rfl, hi, ht⟩
  | error e =>
      refine Or.inr ⟨rfl, ?_, h1, h2⟩
      simp [MetaDict.get_set]

/-- The reachability invariant: every stored job has one of the three
lifecycle shapes, and a job whose id has not yet been executed is still the
pristine pending record created by `create_render`. -/
def StoreInv (seen : List String) (db : Store) : Prop :=
  ∀ r ∈ db, JobShape r ∧ (r.id ∉ seen → PendingShape r)

theorem create_preserves_inv (reg : ModelRegistry) (seen : List String)
    (db : Store) (p : CreateParams) (newId now_iso : String)
    (h : StoreInv seen db) :
    StoreInv seen (create_render reg db p newId now_iso).2 := by
  unfold create_render
  by_cases hm : p.model_key ∉ reg.list_models
  · rw [if_pos hm]
    exact h
  · rw [if_neg hm]
    intro r hr
    simp only [List.mem_append, List.mem_singleton] at hr
    rcases hr with hr | hr
    · exact h r hr
    · subst hr
      exact ⟨Or.inr (Or.inr ⟨rfl, rfl, rfl⟩), fun _ => ⟨rfl, rfl, rfl⟩⟩

theorem exec_preserves_inv (reg : ModelRegistry) (seen : List String)
    (db : Store) (i : String) (env : Env)
    (h : StoreInv seen db) (hi : i ∉ seen) :
    StoreInv (i :: seen) (process_render reg env db i) := by
  rw [process_render_eq]
  cases hf : findJob db i with
  | none =>
      intro r hr
      obtain ⟨hs, hp⟩ := h r hr
      exact ⟨hs, fun hn => hp (fun hmem => hn (List.mem_cons_of_mem i hmem))⟩
  | some r =>
      intro x hx
      rcases mem_updateJob db i (executeJob reg env r) x hx with hx | ⟨hx, hxid⟩
      · have hrid : r.id = i := findJob_some_id db i r hf
        have hrmem : r ∈ db := findJob_mem db i r hf
        obtain ⟨_, hp⟩ := h r hrmem
        obtain ⟨_, hp1, hp2⟩ := hp (by rw [hrid]; exact hi)
        have hshape := executeJob_shape reg env r hp1 hp2
        subst hx
        constructor
        · rcases hshape with hs | hs
          · exact Or.inl hs
          · exact Or.inr (Or.inl hs)
        · intro hn
          exact absurd (by rw [executeJob_id, hrid]; exact List.mem_cons_self i seen) hn
      · obtain ⟨hs, hp⟩ := h x hx
        exact ⟨hs, fun hn => hp (fun hmem => hn (List.mem_cons_of_mem i hmem))⟩

theorem storeInv_congr (s1 s2 : List String) (db : Store)
    (h : ∀ x, x ∈ s1 ↔ x ∈ s2) (hi : StoreInv s1 db) : StoreInv s2 db := by
  intro r hr
  obtain ⟨ha, hb⟩ := hi r hr
  exact ⟨ha, fun hn => hb (fun hm => hn ((h _).mp hm))⟩

theorem foldl_preserves_inv (reg : ModelRegistry) (es : List Event) :
    ∀ (db : Store) (seen : List String), StoreInv seen db →
    (es.filterMap Event.execId).Nodup →
    (∀ i ∈ es.filterMap Event.execId, i ∉ seen) →
    StoreInv (es.filterMap Event.execId ++ seen)
      (es.foldl (stepEvent reg) db) := by
  induction es with
  | nil =>
      intro db seen h _ _
      exact h
  | cons e rest ih =>
      intro db seen h hnd hfr
      cases e with
      | create p newId now_iso =>
          have hcons : (Event.create p newId now_iso :: rest).filterMap
              Event.execId = rest.filterMap Event.execId := by
            simp [Event.execId]
          rw [hcons] at hnd hfr ⊢
          exact ih _ seen
            (create_preserves_inv reg seen db p newId now_iso h) hnd hfr
      | exec i env =>
          have hcons : (Event.exec i env :: rest).filterMap Event.execId =
              i :: rest.filterMap Event.execId := by
            simp [Event.execId]
          rw [hcons] at hnd hfr ⊢
          have hi : i ∉ rest.filterMap Event.execId :=
            (List.nodup_cons.mp hnd).1
          have hnd' : (rest.filterMap Event.execId).Nodup :=
            (List.nodup_cons.mp hnd).2
          have hins : i ∉ seen := hfr i (List.mem_cons_self _ _)
          have hfr' : ∀ j ∈ rest.filterMap Event.execId, j ∉ i :: seen := by
            intro j hj
            rw [List.mem_cons]
            rintro (hji | hjs)
            · exact hi (hji ▸ hj)
            · exact hfr j (List.mem_cons_of_mem _ hj) hjs
          have hmain := ih _ (i :: seen)
            (exec_preserves_inv reg seen db i env h hins) hnd' hfr'
          refine storeInv_congr _ _ _ (fun x => ?_) hmain
          simp only [List.mem_append, List.mem_cons]
          tauto

theorem runTrace_inv (reg : ModelRegistry) (es : List Event)
    (hwf : WFTrace es) :
    StoreInv (es.filterMap Event.execId) (runTrace reg es) := by
  have h := foldl_preserves_inv reg es [] []
    (by intro r hr; exact absurd hr (List.not_mem_nil r))
    hwf.2 (by intro i _ hmem; exact absurd hmem (List.not_mem_nil i))
  simpa using h

theorem runTrace_shape (reg : ModelRegistry) (es : List Event)
    (hwf : WFTrace es) : ∀ r ∈ runTrace reg es, JobShape r := by
  intro r hr
  exact (runTrace_inv reg es hwf r hr).1

theorem process_render_frame (reg : ModelRegistry) (env : Env) (db : Store)
    (id k : String) (hk : k ≠ id) :
    findJob (process_render reg env db id) k = findJob db k := by
  rw [process_render_eq]
  cases hf : findJob db id with
  | none => rfl
  | some r =>
      exact findJob_updateJob_ne db id k _
        (by rw [executeJob_id]; exact findJob_some_id db id r hf) hk

theorem process_render_found (reg : ModelRegistry) (env : Env) (db : Store)
    (id : String) (r : Render) (hf : findJob db id = some r) :
    findJob (process_render reg env db id) id =
      some (executeJob reg env r) := by
  rw [process_render_eq, hf]
  rw [findJob_updateJob_self db id _
    (by rw [executeJob_id]; exact findJob_some_id db id r hf)]
  rw [hf]
  rfl

theorem create_render_frame (reg : ModelRegistry) (db : Store)
    (p : CreateParams) (newId now_iso k : String) (hk : k ≠ newId) :
    findJob (create_render reg db p newId now_iso).2 k = findJob db k := by
  unfold create_render
  by_cases hm : p.model_key ∉ reg.list_models
  · rw [if_pos hm]
  · rw [if_neg hm]
    rw [findJob_append]
    have hne : ¬ ((newRender p newId now_iso).id = k) := fun h => hk h.symm
    simp only [hne, if_false]
    cases findJob db k <;> rfl

/-- Modelled from the spec: the thumbnail derivation invoked as
`thumb_image.thumbnail((200, 200), LANCZOS)` (line 155 of
`render_service.py`) is implemented by the external Pillow library, not by
this repository.  The spec describes it as a fixed-aspect-preserving resize
bounded to 200×200 (longest-edge fit).  The rounding of the scaled edge to
whole pixels, which the spec leaves unstated, follows Pillow's published
`round_aspect` rule: floor or ceiling of the exact scaled value, whichever
is nearer the true aspect, and never below 1. -/
def round_aspect (number : Rat) (key : Int → Rat) : Int :=
  max (if key ⌊number⌋ ≤ key ⌈number⌉ then ⌊number⌋ else ⌈number⌉) 1

/-- The aspect ratio `self.width / self.height` of the decoded image. -/
def pil_aspect (w h : Nat) : Rat := (w : Rat) / (h : Rat)

/-- Modelled from the spec: the size Pillow's `Image.thumbnail((200, 200))`
resizes a `w × h` image to — unchanged when the image already fits in the
200×200 box, else the longest edge becomes 200 and the other edge is the
aspect-preserving scaled value rounded by `round_aspect`. -/
def thumbnailSize (w h : Nat) : Nat × Nat :=
  if 200 ≥ w ∧ 200 ≥ h then (w, h)
  else if (200 : Rat) / 200 ≥ pil_aspect w h then
    ((round_aspect (200 * pil_aspect w h)
        (fun n => |pil_aspect w h - (n : Rat) / 200|)).toNat, 200)
  else
    (200, (round_aspect (200 / pil_aspect w h)
        (fun n => if n = 0 then 0 else |pil_aspect w h - 200 / (n : Rat)|)).toNat)

theorem round_aspect_mem (e : Rat) (key : Int → Rat) :
    round_aspect e key = max ⌊e⌋ 1 ∨ round_aspect e key = max ⌈e⌉ 1 := by
  unfold round_aspect
  by_cases h : key ⌊e⌋ ≤ key ⌈e⌉
  · left; rw [if_pos h]
  · right; rw [if_neg h]

theorem one_le_round_aspect (e : Rat) (key : Int → Rat) :
    1 ≤ round_aspect e key :=
  le_max_right _ _

theorem round_aspect_le (e : Rat) (key : Int → Rat) (n : Int)
    (h : e ≤ (n : Rat)) (hn : 1 ≤ n) : round_aspect e key ≤ n := by
  have hce : ⌈e⌉ ≤ n := Int.ceil_le.mpr h
  have hfe : ⌊e⌋ ≤ n := le_trans (Int.floor_le_ceil e) hce
  rcases round_aspect_mem e key with hr | hr <;> rw [hr]
  · exact max_le hfe hn
  · exact max_le hce hn

/-- The amended thumbnail property: both edges bounded by 200 and positive,
and either the image already fit in the box and is unchanged, or the longest
edge is exactly 200 and the other edge is the aspect-preserving exact value
rounded to an adjacent integer (at least 1). -/
def ThumbnailSpec (w h : Nat) : Prop :=
  (thumbnailSize w h).1 ≤ 200 ∧ (thumbnailSize w h).2 ≤ 200 ∧
  0 < (thumbnailSize w h).1 ∧ 0 < (thumbnailSize w h).2 ∧
  ((w ≤ 200 ∧ h ≤ 200 ∧ thumbnailSize w h = (w, h)) ∨
   ((thumbnailSize w h).2 = 200 ∧
     (((thumbnailSize w h).1 : Int) = max ⌊(200 : Rat) * w / h⌋ 1 ∨
      ((thumbnailSize w h).1 : Int) = max ⌈(200 : Rat) * w / h⌉ 1)) ∨
   ((thumbnailSize w h).1 = 200 ∧
     (((thumbnailSize w h).2 : Int) = max ⌊(200 : Rat) * h / w⌋ 1 ∨
      ((thumbnailSize w h).2 : Int) = max ⌈(200 : Rat) * h / w⌉ 1)))

theorem thumbnailSize_spec (w h : Nat) (hw : 0 < w) (hh : 0 < h) :
    ThumbnailSpec w h := by
  unfold ThumbnailSpec thumbnailSize
  by_cases h0 : 200 ≥ w ∧ 200 ≥ h
  · rw [if_pos h0]
    exact ⟨h0.1, h0.2, hw, hh, Or.inl ⟨h0.1, h0.2, rfl⟩⟩
  · rw [if_neg h0]
    by_cases h1 : (200 : Rat) / 200 ≥ pil_aspect w h
    · rw [if_pos h1]
      have hasp : pil_aspect w h ≤ 1 := by
        have h200 : (200 : Rat) / 200 = 1 := by norm_num
        rw [h200] at h1
        exact h1
      have hle : (200 : Rat) * pil_aspect w h ≤ ((200 : Int) : Rat) := by
        have := mul_le_mul_of_nonneg_left hasp (by norm_num : (0:Rat) ≤ 200)
        rw [mul_one] at this
        calc (200 : Rat) * pil_aspect w h ≤ 200 := this
        _ = ((200 : Int) : Rat) := by norm_num
      have hub := round_aspect_le (200 * pil_aspect w h)
        (fun n => |pil_aspect w h - (n : Rat) / 200|) 200 hle (by norm_num)
      have hlb := one_le_round_aspect (200 * pil_aspect w h)
        (fun n => |pil_aspect w h - (n : Rat) / 200|)
      refine ⟨by omega, by norm_num, by omega, by norm_num, Or.inr (Or.inl ⟨rfl, ?_⟩)⟩
      have hcast : (((round_aspect (200 * pil_aspect w h)
          (fun n => |pil_aspect w h - (n : Rat) / 200|)).toNat : Int)) =
          round_aspect (200 * pil_aspect w h)
            (fun n => |pil_aspect w h - (n : Rat) / 200|) := by omega
      have hexpr : (200 : Rat) * (w : Rat) / (h : Rat) = 200 * pil_aspect w h := by
        rw [pil_aspect, mul_div_assoc]
      rw [hcast, hexpr]
      exact round_aspect_mem _ _
    · rw [if_neg h1]
      have hasp : 1 < pil_aspect w h := by
        have h200 : (200 : Rat) / 200 = 1 := by norm_num
        rw [h200] at h1
        exact lt_of_not_le h1
      have haspos : 0 < pil_aspect w h := lt_trans one_pos hasp
      have hle : (200 : Rat) / pil_aspect w h ≤ ((200 : Int) : Rat) := by
        rw [div_le_iff₀ haspos]
        calc (200 : Rat) = 200 * 1 := by norm_num
        _ ≤ 200 * pil_aspect w h :=
            mul_le_mul_of_nonneg_left (le_of_lt hasp) (by norm_num)
        _ = ((200 : Int) : Rat) * pil_aspect w h := by norm_num
      have hub := round_aspect_le (200 / pil_aspect w h)
        (fun n => if n = 0 then 0 else |pil_aspect w h - 200 / (n : Rat)|)
        200 hle (by norm_num)
      have hlb := one_le_round_aspect (200 / pil_aspect w h)
        (fun n => if n = 0 then 0 else |pil_aspect w h - 200 / (n : Rat)|)
      refine ⟨by norm_num, by omega, by norm_num, by omega, Or.inr (Or.inr ⟨rfl, ?_⟩)⟩
      have hcast : (((round_aspect (200 / pil_aspect w h)
          (fun n => if n = 0 then 0 else |pil_aspect w h - 200 / (n : Rat)|)).toNat : Int)) =
          round_aspect (200 / pil_aspect w h)
            (fun n => if n = 0 then 0 else |pil_aspect w h - 200 / (n : Rat)|) := by omega
      have hexpr : (200 : Rat) * (h : Rat) / (w : Rat) = 200 / pil_aspect w h := by
        rw [pil_aspect, div_div_eq_mul_div]
      rw [hcast, hexpr]
      exact round_aspect_mem _ _

theorem create_render_registered (reg : ModelRegistry) (db : Store)
    (p : CreateParams) (newId now_iso : String)
    (h : p.model_key ∈ reg.list_models) :
    create_render reg db p newId now_iso =
      (Except.ok (newRender p newId now_iso), db ++ [newRender p newId now_iso]) := by
  unfold create_render
  rw [if_neg (not_not_intro h)]

theorem findJob_create_some (reg : ModelRegistry) (db : Store)
    (p : CreateParams) (newId now_iso k : String) (r : Render)
    (h : findJob db k = some r) :
    findJob (create_render reg db p newId now_iso).2 k = some r := by
  unfold create_render
  by_cases hm : p.model_key ∉ reg.list_models
  · rw [if_pos hm]
    exact h
  · rw [if_neg hm]
    rw [findJob_append, h]
    rfl

theorem foldl_keeps_found (reg : ModelRegistry) (es2 : List Event) :
    ∀ (db : Store) (render_id : String) (r : Render),
    findJob db render_id = some r →
    (∀ i ∈ es2.filterMap Event.execId, i ≠ render_id) →
    findJob (es2.foldl (stepEvent reg) db) render_id = some r := by
  induction es2 with
  | nil =>
      intro db render_id r hf _
      exact hf
  | cons e rest ih =>
      intro db render_id r hf hids
      cases e with
      | create p newId now_iso =>
          have hids' : ∀ i ∈ rest.filterMap Event.execId, i ≠ render_id := by
            intro i hi
            exact hids i (by simpa [Event.execId] using hi)
          exact ih _ render_id r
            (findJob_create_some reg db p newId now_iso render_id r hf) hids'
      | exec i env =>
          have hcons : (Event.exec i env :: rest).filterMap Event.execId =
              i :: rest.filterMap Event.execId := by
            simp [Event.execId]
          rw [hcons] at hids
          have hne : render_id ≠ i :=
            fun hh => hids i (List.mem_cons_self _ _) hh.symm
          have hstep : findJob (process_render reg env db i) render_id = some r := by
            rw [process_render_frame reg env db i render_id hne]
            exact hf
          exact ih _ render_id r hstep
            (fun j hj => hids j (List.mem_cons_of_mem _ hj))

theorem terminal_in_execIds (reg : ModelRegistry) (es : List Event)
    (render_id : String) (r : Render) (hwf : WFTrace es)
    (hf : findJob (runTrace reg es) render_id = some r)
    (hst : r.status = "done" ∨ r.status = "failed") :
    render_id ∈ es.filterMap Event.execId := by
  have hinv := runTrace_inv reg es hwf
  have hmem := findJob_mem _ _ _ hf
  have hrid : r.id = render_id := findJob_some_id _ _ _ hf
  by_contra hn
  have hp : PendingShape r := (hinv r hmem).2 (by rw [hrid]; exact hn)
  rcases hst with h | h <;> rw [hp.1] at h <;> exact absurd h (by decide)

theorem stylePairs_length (ss ms : List String) :
    (stylePairs ss ms).length = ss.length * ms.length := by
  induction ss with
  | nil => simp [stylePairs]
  | cons s rest ih =>
      show ((ms.map (fun m => (s, m))) ++ stylePairs rest ms).length = _
      rw [List.length_append, List.length_map, ih]
      simp [List.length_cons]
      ring

theorem stylePairs_snd_mem (ss ms : List String) (pr : String × String)
    (h : pr ∈ stylePairs ss ms) : pr.2 ∈ ms := by
  induction ss with
  | nil => exact absurd h (List.not_mem_nil pr)
  | cons s rest ih =>
      rcases List.mem_append.mp h with h2 | h2
      · obtain ⟨m, hm, hpr⟩ := List.mem_map.mp h2
        rw [← hpr]
        exact hm
      · exact ih h2

theorem matrixLoop_ok (reg : ModelRegistry) (base_prompt : String)
    (user_id : Option Int) (idGen : Nat → String) (now_iso : String) :
    ∀ (pairs : List (String × String)) (db : Store) (k : Nat)
      (acc : List Render),
    (∀ pr ∈ pairs, pr.2 ∈ reg.list_models) →
    ∃ rs db2,
      matrixLoop reg base_prompt user_id idGen now_iso pairs db k acc =
        (Except.ok rs, db2) ∧
      rs.length = pairs.length + acc.length ∧
      ∀ r ∈ rs, r ∈ acc ∨ (r.status = "pending" ∧ r.cost_credits = 0 ∧
        r.user_id = user_id ∧ r.image_path = "" ∧ r.thumb_path = "") := by
  intro pairs
  induction pairs with
  | nil =>
      intro db k acc _
      refine ⟨acc.reverse, db, rfl, by simp, ?_⟩
      intro r hr
      exact Or.inl (List.mem_reverse.mp hr)
  | cons pr rest ih =>
      intro db k acc hmods
      obtain ⟨sp, mk⟩ := pr
      have hm : mk ∈ reg.list_models := hmods (sp, mk) (List.mem_cons_self _ _)
      have hcr := create_render_registered reg db
        (matrixParams user_id sp mk base_prompt) (idGen k) now_iso hm
      have hstep : matrixLoop reg base_prompt user_id idGen now_iso
          ((sp, mk) :: rest) db k acc =
          matrixLoop reg base_prompt user_id idGen now_iso rest
            (db ++ [newRender (matrixParams user_id sp mk base_prompt)
              (idGen k) now_iso]) (k + 1)
            (newRender (matrixParams user_id sp mk base_prompt)
              (idGen k) now_iso :: acc) := by
        conv_lhs => rw [matrixLoop]
        rw [hcr]
      rw [hstep]
      obtain ⟨rs, db2, hloop, hlen, hmem⟩ := ih _ (k + 1) _
        (fun q hq => hmods q (List.mem_cons_of_mem _ hq))
      refine ⟨rs, db2, hloop, by rw [hlen]; simp [List.length_cons]; ring, ?_⟩
      intro r hr
      rcases hmem r hr with hacc | hprops
      · rcases List.mem_cons.mp hacc with hnew | hold
        · subst hnew
          exact Or.inr ⟨rfl, rfl, rfl, rfl, rfl⟩
        · exact Or.inl hold
      · exact Or.inr hprops

/-! ## Concrete fixtures used by witnesses and counterexamples -/

/-- A registry with one registered model, as built from a configured
Replicate token. -/
def regW : ModelRegistry := ModelRegistry.ofSettings
  { replicate_api_token := "tok", openai_api_key := "" }

/-- A submission for the scenario `basePrompt="a cat"`,
`stylePhrase="oil painting"`. -/
def pW : CreateParams :=
  { user_id := none, style_phrase := "oil painting",
    model_key := "replicate:sdxl", base_prompt := "a cat",
    input_image_path := none, cost_credits := 1 }

/-- A fixed clock for witness runs. -/
def dateW : DateParts := { year := 2024, month := 5, iso := "2024-05-01T00:00:00" }

/-- An external world whose provider call raises. -/
def envFail : Env :=
  { gen := fun _ => Except.error "provider timeout",
    download := fun _ => none,
    decode := fun _ => Except.error "cannot identify image file",
    write := fun _ => Except.ok (),
    now := dateW }

/-- The pending job committed by `create_render` for `pW` with id `job-1`. -/
def jobW : Render := newRender pW "job-1" "t0"

/-- `jobW` after a failed execution under `envFail`. -/
def jobWFailed : Render :=
  { jobW with
    status := "failed",
    render_metadata := some
      [("created_at", .s "t0"), ("model_available", .b true),
       ("error", .s "provider timeout"),
       ("failed_at", .s "2024-05-01T00:00:00")] }

/-- A completed job, used to exhibit re-execution of a terminal id. -/
def jobDone : Render :=
  { jobW with
    status := "done",
    image_path := "images/2024/05/job-1.webp",
    thumb_path := "images/2024/05/job-1-thumb.webp" }

/-- A job carrying an input image reference. -/
def jobI2I : Render := { jobW with input_image_path := some "uploads/u1.png" }

/-- A one-submission trace. -/
def tW : List Event := [Event.create pW "job-1" "t0"]

/-! ## The claims -/

/-- C5: `build_prompt` is the pure concatenation of the base prompt, one
separating space and the style phrase, in that order — its length is the sum
of the input lengths plus one (no truncation, no escaping), the base is a
prefix of the output and the style phrase is a suffix. -/
theorem C5_build_prompt_concat (reg : ModelRegistry) (b s : String) :
    reg.build_prompt b s = b ++ " " ++ s ∧
    (reg.build_prompt b s).length = b.length + s.length + 1 ∧
    b.data <+: (reg.build_prompt b s).data ∧
    s.data <:+ (reg.build_prompt b s).data := by
  have he : reg.build_prompt b s = b ++ " " ++ s := by
    simp [ModelRegistry.build_prompt, ToString.toString,
      String.append_empty, String.empty_append]
  have hd : (b ++ " " ++ s).data = b.data ++ ((" ").data ++ s.data) := by
    rw [String.data_append, String.data_append, List.append_assoc]
  refine ⟨he, ?_, ?_, ?_⟩
  · rw [he, String.length_append, String.length_append]
    have h1 : (" " : String).length = 1 := rfl
    omega
  · rw [he]
    exact ⟨(" ").data ++ s.data, hd.symm⟩
  · rw [he]
    refine ⟨b.data ++ (" ").data, ?_⟩
    rw [hd, List.append_assoc]

/-- C4: `create_render` with a model key that is not registered raises
`ValueError` with the model-not-available message and leaves the job store
exactly as it was: no record is created. -/
theorem C4_unknown_model_rejected (reg : ModelRegistry) (db : Store)
    (p : CreateParams) (newId now_iso : String)
    (h : p.model_key ∉ reg.list_models) :
    create_render reg db p newId now_iso =
      (Except.error ("Model " ++ p.model_key ++ " not available"), db) := by
  unfold create_render
  rw [if_pos h]

theorem C4_unknown_model_rejected_witness :
    create_render (ModelRegistry.ofSettings {}) [] pW "job-1" "t0" =
      (Except.error ("Model " ++ "replicate:sdxl" ++ " not available"), []) :=
  C4_unknown_model_rejected (ModelRegistry.ofSettings {}) [] pW "job-1" "t0"
    (by decide)

/-- C10: a job with an input image reference is dispatched as an
image-to-image call whose strength argument is the literal `0.8`, whatever
the effective prompt and the (metadata-derived) generation parameters are —
no submission parameter or metadata influences the strength. -/
theorem C10_img2img_strength (r : Render) (effective_prompt : String)
    (params : MetaDict) (p : String) (h : r.input_image_path = some p) :
    makeGenCall r effective_prompt params =
      GenCall.img2img p effective_prompt (0.8 : Rat) params ∧
    (makeGenCall r effective_prompt params).strengthArg = some (0.8 : Rat) := by
  unfold makeGenCall
  rw [h]
  exact ⟨rfl, rfl⟩

theorem C10_img2img_strength_witness :
    makeGenCall jobI2I "a cat oil painting" defaultParams =
      GenCall.img2img "uploads/u1.png" "a cat oil painting" (0.8 : Rat)
        defaultParams ∧
    (makeGenCall jobI2I "a cat oil painting" defaultParams).strengthArg =
      some (0.8 : Rat) :=
  C10_img2img_strength jobI2I "a cat oil painting" defaultParams
    "uploads/u1.png" rfl

/-- C2: when any exception is raised during asynchronous execution of a
loaded job (adapter resolution, parameter merging, generation, download,
decoding or asset writes — every `Except.error` of `runGen`), the committed
record has status `failed`, carries the error text under `"error"` and the
failure timestamp under `"failed_at"` merged into its metadata, and its
asset paths are exactly what they were before the execution. -/
theorem C2_failure_sets_failed (reg : ModelRegistry) (env : Env) (db : Store)
    (render_id : String) (r : Render) (e : String)
    (hf : findJob db render_id = some r)
    (he : runGen reg env r = Except.error e) :
    ∃ r', findJob (process_render reg env db render_id) render_id = some r' ∧
      r'.status = "failed" ∧
      (r'.render_metadata.getD []).get "error" = some (.s e) ∧
      (r'.render_metadata.getD []).get "failed_at" = some (.s env.now.iso) ∧
      r'.image_path = r.image_path ∧ r'.thumb_path = r.thumb_path := by
  refine ⟨executeJob reg env r,
    process_render_found reg env db render_id r hf, ?_⟩
  unfold executeJob
  rw [he]
  refine ⟨rfl, ?_, ?_, rfl, rfl⟩
  · simp only [Option.getD_some]
    rw [MetaDict.get_set, if_neg (by decide), MetaDict.get_set, if_pos rfl]
  · simp only [Option.getD_some]
    rw [MetaDict.get_set, if_pos rfl]

theorem C2_failure_sets_failed_witness :
    ∃ r', findJob (process_render regW envFail [jobW] "job-1") "job-1" =
        some r' ∧
      r'.status = "failed" ∧
      (r'.render_metadata.getD []).get "error" =
        some (.s "provider timeout") ∧
      (r'.render_metadata.getD []).get "failed_at" =
        some (.s envFail.now.iso) ∧
      r'.image_path = jobW.image_path ∧ r'.thumb_path = jobW.thumb_path :=
  C2_failure_sets_failed regW envFail [jobW] "job-1" jobW
    "provider timeout" rfl rfl

/-- C8: every metadata write the executor commits (completion or failure) is
a merge — any key other than the freshly written ones (`generation`,
`effective_prompt`, `completed_at` on success; `error`, `failed_at` on
failure) keeps exactly the value it had before the write. -/
theorem C8_metadata_merge (reg : ModelRegistry) (env : Env) (db : Store)
    (render_id : String) (r r' : Render)
    (hf : findJob db render_id = some r)
    (hf' : findJob (process_render reg env db render_id) render_id = some r')
    (k : String)
    (hk : k ∉ (["generation", "effective_prompt", "completed_at", "error",
      "failed_at"] : List String)) :
    (r'.render_metadata.getD []).get k = (r.render_metadata.getD []).get k := by
  rw [process_render_found reg env db render_id r hf] at hf'
  injection hf' with hr'
  subst hr'
  simp only [List.mem_cons, List.not_mem_nil, or_false, not_or] at hk
  obtain ⟨h1, h2, h3, h4, h5⟩ := hk
  unfold executeJob
  cases runGen reg env r with
  | ok out =>
      simp only [Option.getD_some]
      rw [MetaDict.get_set, if_neg (fun hx => h3 hx.symm),
          MetaDict.get_set, if_neg (fun hx => h2 hx.symm),
          MetaDict.get_set, if_neg (fun hx => h1 hx.symm)]
  | error e =>
      simp only [Option.getD_some]
      rw [MetaDict.get_set, if_neg (fun hx => h5 hx.symm),
          MetaDict.get_set, if_neg (fun hx => h4 hx.symm)]

theorem C8_metadata_merge_witness :
    (jobWFailed.render_metadata.getD []).get "created_at" =
      (jobW.render_metadata.getD []).get "created_at" :=
  C8_metadata_merge regW envFail [jobW] "job-1" jobW jobWFailed
    rfl rfl "created_at" (by decide)

/-- Exactly one of the three lifecycle shapes holds. -/
def ExactlyOneShape (r : Render) : Prop :=
  (DoneShape r ∧ ¬ FailedShape r ∧ ¬ PendingShape r) ∨
  (FailedShape r ∧ ¬ DoneShape r ∧ ¬ PendingShape r) ∨
  (PendingShape r ∧ ¬ DoneShape r ∧ ¬ FailedShape r)

theorem jobShape_exactlyOne (r : Render) (h : JobShape r) :
    ExactlyOneShape r := by
  rcases h with h | h | h
  · exact Or.inl ⟨h,
      fun hf => absurd (h.1.symm.trans hf.1) (by decide),
      fun hp => absurd (h.1.symm.trans hp.1) (by decide)⟩
  · exact Or.inr (Or.inl ⟨h,
      fun hd => absurd (h.1.symm.trans hd.1) (by decide),
      fun hp => absurd (h.1.symm.trans hp.1) (by decide)⟩)
  · exact Or.inr (Or.inr ⟨h,
      fun hd => absurd (h.1.symm.trans hd.1) (by decide),
      fun hf => absurd (h.1.symm.trans hf.1) (by decide)⟩)

/-- C1: in every store reachable by the system's operations — submissions
with fresh ids, each created job executed at most once, as `create_render`
guarantees by enqueueing each new `uuid4` exactly once — every job satisfies
exactly one of: `done` with both asset paths non-empty, `failed` with an
error recorded and both asset paths empty, or `pending` with both asset
paths empty. -/
theorem C1_lifecycle_invariant (reg : ModelRegistry) (es : List Event)
    (hwf : WFTrace es) (r : Render) (hr : r ∈ runTrace reg es) :
    ExactlyOneShape r :=
  jobShape_exactlyOne r (runTrace_shape reg es hwf r hr)

theorem C1_lifecycle_invariant_witness : ExactlyOneShape jobW :=
  C1_lifecycle_invariant regW tW ⟨by decide, by decide⟩ jobW
    (List.mem_singleton.mpr rfl)

/-- C9: every record is created with `image_path` and `thumb_path` equal to
the empty string (not null — the columns are non-nullable), and
`get_render_status` on any reachable pending or failed job returns the empty
string (present, not missing) for both asset-path fields. -/
theorem C9_empty_string_paths (reg : ModelRegistry) :
    (∀ (db : Store) (p : CreateParams) (newId now_iso : String) (r : Render)
      (db2 : Store),
      create_render reg db p newId now_iso = (Except.ok r, db2) →
      r.image_path = "" ∧ r.thumb_path = "") ∧
    (∀ (es : List Event) (render_id : String) (v : RenderStatusView),
      WFTrace es →
      get_render_status (runTrace reg es) render_id = some v →
      v.status = "pending" ∨ v.status = "failed" →
      v.image_path = "" ∧ v.thumb_path = "") := by
  constructor
  · intro db p newId now_iso r db2 hcr
    unfold create_render at hcr
    by_cases hm : p.model_key ∉ reg.list_models
    · rw [if_pos hm] at hcr
      exact absurd (congrArg Prod.fst hcr) (by simp)
    · rw [if_neg hm] at hcr
      have hfst := congrArg Prod.fst hcr
      simp only at hfst
      injection hfst with hr
      rw [← hr]
      exact ⟨rfl, rfl⟩
  · intro es render_id v hwf hg hst
    unfold get_render_status at hg
    cases hfind : findJob (runTrace reg es) render_id with
    | none =>
        simp only [hfind] at hg
        exact Option.noConfusion hg
    | some r0 =>
        simp only [hfind] at hg
        injection hg with hv
        have hshape := runTrace_shape reg es hwf r0
          (findJob_mem _ _ _ hfind)
        have hvs : v.status = r0.status := by rw [← hv]
        have hvi : v.image_path = r0.image_path := by rw [← hv]
        have hvt : v.thumb_path = r0.thumb_path := by rw [← hv]
        rw [hvi, hvt]
        rcases hshape with h | h | h
        · rcases hst with hs | hs <;> rw [hvs, h.1] at hs <;>
            exact absurd hs (by decide)
        · exact ⟨h.2.2.1, h.2.2.2⟩
        · exact ⟨h.2.1, h.2.2⟩

theorem C9_empty_string_paths_witness :
    (jobW.image_path = "" ∧ jobW.thumb_path = "") ∧
    ((get_render_status (runTrace regW tW) "job-1").getD
        { id := "", status := "", style_phrase := "", model_key := "",
          base_prompt := "", image_path := "x", thumb_path := "x",
          created_at := none, metadata := none }).image_path = "" := by
  constructor
  · exact (C9_empty_string_paths regW).1 [] pW "job-1" "t0" jobW [jobW] rfl
  · have h := (C9_empty_string_paths regW).2 tW "job-1"
      { id := "job-1", status := "pending", style_phrase := "oil painting",
        model_key := "replicate:sdxl", base_prompt := "a cat",
        image_path := "", thumb_path := "", created_at := none,
        metadata := some [("created_at", .s "t0"),
          ("model_available", .b true)] }
      ⟨by decide, by decide⟩ rfl (Or.inl rfl)
    exact h.1

/-- C3 as stated is false: `process_render` has no status guard, so
re-executing the id of a job that is already `done` (here: under an
environment whose provider call raises) commits a transition out of the
terminal state `done` into `failed`. -/
theorem C3_counterexample :
    (findJob [jobDone] "job-1").map (fun r => r.status) = some "done" ∧
    (findJob (process_render regW envFail [jobDone] "job-1") "job-1").map
      (fun r => r.status) = some "failed" :=
  ⟨rfl, rfl⟩

/-- C3 (amended): the executor moves a pending job only to `done` or
`failed` and touches no other job, and in every run in which each job id is
executed at most once — which the code's submission discipline guarantees,
since every created job gets a fresh `uuid4` and is enqueued exactly once —
a job that has reached `done` or `failed` never changes again.  (Without
that discipline the claim fails: re-executing a terminal id re-processes it,
see the counterexample.) -/
theorem C3_forward_transitions :
    (∀ (reg : ModelRegistry) (env : Env) (db : Store) (render_id : String)
      (r : Render),
      findJob db render_id = some r → r.status = "pending" →
      ∃ r', findJob (process_render reg env db render_id) render_id =
          some r' ∧ (r'.status = "done" ∨ r'.status = "failed")) ∧
    (∀ (reg : ModelRegistry) (env : Env) (db : Store) (render_id k : String),
      k ≠ render_id →
      findJob (process_render reg env db render_id) k = findJob db k) ∧
    (∀ (reg : ModelRegistry) (es es2 : List Event) (render_id : String)
      (r : Render),
      WFTrace (es ++ es2) →
      findJob (runTrace reg es) render_id = some r →
      r.status = "done" ∨ r.status = "failed" →
      findJob (runTrace reg (es ++ es2)) render_id = some r) := by
  refine ⟨?_, ?_, ?_⟩
  · intro reg env db render_id r hf _
    exact ⟨executeJob reg env r,
      process_render_found reg env db render_id r hf,
      executeJob_status reg env r⟩
  · intro reg env db render_id k hk
    exact process_render_frame reg env db render_id k hk
  · intro reg es es2 render_id r hwf hf hst
    have hsplit1 : ((es ++ es2).filterMap Event.createId) =
        es.filterMap Event.createId ++ es2.filterMap Event.createId :=
      List.filterMap_append _ _ _
    have hsplit2 : ((es ++ es2).filterMap Event.execId) =
        es.filterMap Event.execId ++ es2.filterMap Event.execId :=
      List.filterMap_append _ _ _
    obtain ⟨hwfc, hwfe⟩ := hwf
    rw [hsplit1] at hwfc
    rw [hsplit2] at hwfe
    have hwf1 : WFTrace es :=
      ⟨(List.nodup_append.mp hwfc).1, (List.nodup_append.mp hwfe).1⟩
    have hin : render_id ∈ es.filterMap Event.execId :=
      terminal_in_execIds reg es render_id r hwf1 hf hst
    have hdisj : ∀ i ∈ es2.filterMap Event.execId, i ≠ render_id := by
      intro i hi hieq
      exact (List.nodup_append.mp hwfe).2.2 hin (hieq ▸ hi)
    have hruns : runTrace reg (es ++ es2) =
        es2.foldl (stepEvent reg) (runTrace reg es) := by
      unfold runTrace
      rw [List.foldl_append]
    rw [hruns]
    exact foldl_keeps_found reg es2 (runTrace reg es) render_id r hf hdisj

theorem C3_forward_transitions_witness :
    (∃ r', findJob (process_render regW envFail [jobW] "job-1") "job-1" =
        some r' ∧ (r'.status = "done" ∨ r'.status = "failed")) ∧
    findJob (process_render regW envFail [jobW] "job-1") "job-2" =
      findJob [jobW] "job-2" ∧
    findJob (runTrace regW ((tW ++ [Event.exec "job-1" envFail]) ++
      [Event.exec "job-2" envFail])) "job-1" = some jobWFailed := by
  refine ⟨?_, ?_, ?_⟩
  · exact C3_forward_transitions.1 regW envFail [jobW] "job-1" jobW rfl rfl
  · exact C3_forward_transitions.2.1 regW envFail [jobW] "job-1" "job-2"
      (by decide)
  · exact C3_forward_transitions.2.2 regW (tW ++ [Event.exec "job-1" envFail])
      [Event.exec "job-2" envFail]
      "job-1" jobWFailed ⟨by decide, by decide⟩ rfl (Or.inr rfl)

/-- C7 as stated is false: with one style phrase and one model key that is
not registered (S·M = 1), `create_matrix_renders` raises `ValueError` out of
the loop and commits zero job records instead of one — an unregistered
combination prevents the creation of the remaining ones. -/
theorem C7_counterexample :
    create_matrix_renders (ModelRegistry.ofSettings {}) [] "a cat"
        ["oil painting"] ["replicate:sdxl"] none (fun k => toString k) "t0" =
      (Except.error ("Model " ++ "replicate:sdxl" ++ " not available"), []) ∧
    ¬ ∃ rs db2,
      create_matrix_renders (ModelRegistry.ofSettings {}) [] "a cat"
          ["oil painting"] ["replicate:sdxl"] none (fun k => toString k)
          "t0" = (Except.ok rs, db2) ∧
      rs.length = 1 := by
  have h0 : create_matrix_renders (ModelRegistry.ofSettings {}) [] "a cat"
      ["oil painting"] ["replicate:sdxl"] none (fun k => toString k) "t0" =
      (Except.error ("Model " ++ "replicate:sdxl" ++ " not available"), []) :=
    rfl
  refine ⟨h0, ?_⟩
  rintro ⟨rs, db2, h, _⟩
  rw [h0] at h
  simp at h

/-- C7 (amended): when every listed model key is registered, matrix creation
returns exactly S·M committed job records, one per (style, model)
combination, each anonymous (`user_id = none`) with `cost_credits = 0`,
pending and with empty asset paths; the jobs are executed independently —
processing any one job id leaves every other record in the committed store
untouched, so one job's failure cannot affect the others.  (When a model key
is unregistered the loop raises and the remaining combinations are not
created — see the counterexample — though already-committed rows are kept.) -/
theorem C7_matrix_creation (reg : ModelRegistry) (db : Store)
    (base_prompt : String) (style_phrases model_keys : List String)
    (idGen : Nat → String) (now_iso : String)
    (hmods : ∀ m ∈ model_keys, m ∈ reg.list_models) :
    ∃ rs db2,
      create_matrix_renders reg db base_prompt style_phrases model_keys
        none idGen now_iso = (Except.ok rs, db2) ∧
      rs.length = style_phrases.length * model_keys.length ∧
      (∀ r ∈ rs, r.status = "pending" ∧ r.cost_credits = 0 ∧
        r.user_id = none ∧ r.image_path = "" ∧ r.thumb_path = "") ∧
      (∀ (env : Env) (i k : String), k ≠ i →
        findJob (process_render reg env db2 i) k = findJob db2 k) := by
  obtain ⟨rs, db2, hloop, hlen, hmem⟩ :=
    matrixLoop_ok reg base_prompt none idGen now_iso
      (stylePairs style_phrases model_keys) db 0 []
      (fun pr hpr => hmods pr.2 (stylePairs_snd_mem _ _ pr hpr))
  refine ⟨rs, db2, hloop, ?_, ?_, ?_⟩
  · rw [hlen, stylePairs_length]
    simp
  · intro r hr
    rcases hmem r hr with habs | hprops
    · exact absurd habs (List.not_mem_nil r)
    · exact hprops
  · intro env i k hk
    exact process_render_frame reg env db2 i k hk

theorem C7_matrix_creation_witness :
    ∃ rs db2,
      create_matrix_renders regW [] "a cat" ["oil painting", "watercolor"]
        ["replicate:sdxl"] none (fun k => "m-" ++ toString k) "t0" =
        (Except.ok rs, db2) ∧
      rs.length = 2 * 1 ∧
      (∀ r ∈ rs, r.status = "pending" ∧ r.cost_credits = 0 ∧
        r.user_id = none ∧ r.image_path = "" ∧ r.thumb_path = "") ∧
      (∀ (env : Env) (i k : String), k ≠ i →
        findJob (process_render regW env db2 i) k = findJob db2 k) :=
  C7_matrix_creation regW [] "a cat" ["oil painting", "watercolor"]
    ["replicate:sdxl"] (fun k => "m-" ++ toString k) "t0" (by decide)

/-- C6 as stated is false: a 300×200 image is thumbnailed to 200×133, and
200·200 ≠ 133·300 — the aspect ratio 3:2 is not exactly preserved, because
the exactly scaled edge 133⅓ must be rounded to whole pixels (no thumbnail
with longest edge 200 could preserve 3:2 exactly). -/
theorem C6_counterexample :
    thumbnailSize 300 200 = (200, 133) ∧
    ¬ ((200 : Nat) * 200 = 133 * 300) := by
  constructor
  · unfold thumbnailSize
    rw [if_neg (by decide)]
    have ha : pil_aspect 300 200 = 3 / 2 := by
      unfold pil_aspect
      norm_num
    rw [ha]
    rw [if_neg (by norm_num)]
    unfold round_aspect
    have hq : (200 : Rat) / (3 / 2) = 400 / 3 := by norm_num
    rw [hq]
    have hf : ⌊(400 / 3 : Rat)⌋ = 133 := by
      rw [Int.floor_eq_iff]
      constructor <;> norm_num
    have hc : ⌈(400 / 3 : Rat)⌉ = 134 := by
      rw [Int.ceil_eq_iff]
      constructor <;> norm_num
    rw [hf, hc]
    beta_reduce
    rw [if_neg (show ¬ ((133 : Int) = 0) by norm_num),
        if_neg (show ¬ ((134 : Int) = 0) by norm_num)]
    rw [abs_of_neg (show ((3 : Rat) / 2 - 200 / ((133 : Int) : Rat)) < 0 by
          norm_num),
        abs_of_nonneg (show (0 : Rat) ≤ ((3 : Rat) / 2 - 200 /
          ((134 : Int) : Rat)) by norm_num)]
    rw [if_pos (by norm_num)]
    rfl
  · decide

/-- C6 (amended): for every positive input size the derived thumbnail has
both edges bounded by 200 (so the longest edge is at most 200) and positive,
and preserves the aspect ratio up to the integer rounding of the scaled
edge: either the image already fits in the 200×200 box and is returned
unchanged, or the longest edge becomes exactly 200 and the other edge is the
floor or the ceiling of the exactly scaled value (at least 1).  The two
cited examples are exact: 4000×2000 → 200×100 and 500×500 → 200×200. -/
theorem C6_thumbnail_bounded :
    (∀ w h : Nat, 0 < w → 0 < h → ThumbnailSpec w h) ∧
    thumbnailSize 4000 2000 = (200, 100) ∧
    thumbnailSize 500 500 = (200, 200) := by
  refine ⟨fun w h hw hh => thumbnailSize_spec w h hw hh, ?_, ?_⟩
  · unfold thumbnailSize
    rw [if_neg (by decide)]
    have ha : pil_aspect 4000 2000 = 2 := by
      unfold pil_aspect
      norm_num
    rw [ha]
    rw [if_neg (by norm_num)]
    unfold round_aspect
    have hq : (200 : Rat) / 2 = 100 := by norm_num
    rw [hq]
    have hf : ⌊(100 : Rat)⌋ = 100 := by
      rw [Int.floor_eq_iff]
      constructor <;> norm_num
    have hc : ⌈(100 : Rat)⌉ = 100 := by
      rw [Int.ceil_eq_iff]
      constructor <;> norm_num
    rw [hf, hc]
    rw [if_pos (le_refl _)]
    rfl
  · unfold thumbnailSize
    rw [if_neg (by decide)]
    have ha : pil_aspect 500 500 = 1 := by
      unfold pil_aspect
      norm_num
    rw [ha]
    rw [if_pos (by norm_num)]
    unfold round_aspect
    have hq : (200 : Rat) * 1 = 200 := by norm_num
    rw [hq]
    have hf : ⌊(200 : Rat)⌋ = 200 := by
      rw [Int.floor_eq_iff]
      constructor <;> norm_num
    have hc : ⌈(200 : Rat)⌉ = 200 := by
      rw [Int.ceil_eq_iff]
      constructor <;> norm_num
    rw [hf, hc]
    rw [if_pos (le_refl _)]
    rfl

theorem C6_thumbnail_bounded_witness :
    0 < 300 ∧ ThumbnailSpec 300 200 :=
  ⟨by decide, C6_thumbnail_bounded.1 300 200 (by decide) (by decide)⟩
